import Mathlib

/-!
Verification of the GoodSDKs bridging SDK core against its specification.

The TypeScript sources are shallowly embedded: bigint arithmetic becomes
Nat arithmetic (all amounts are unsigned), JavaScript strings become
Lean `String` or `List Char`, fallible code returns `Except`/`Option`,
and remote calls (contract reads, HTTP fetches) are represented by an
explicit outcome parameter so that the surrounding control flow can be
analysed for every possible behaviour of the remote side.
-/

namespace GoodSDKs

/-! ### Chain registry (packages/bridging-sdk/src/constants.ts) -/

structure BridgeChain where
  id : Nat
  name : String
  decimals : Nat
deriving DecidableEq, Repr

/-- SUPPORTED_CHAINS from constants.ts: Celo 42220 (18 dec), Fuse 122 (2 dec),
Ethereum 1 (2 dec), XDC 50 (18 dec). -/
def SUPPORTED_CHAINS (chainId : Nat) : Option BridgeChain :=
  if chainId = 42220 then some ⟨42220, "Celo", 18⟩
  else if chainId = 122 then some ⟨122, "Fuse", 2⟩
  else if chainId = 1 then some ⟨1, "Ethereum", 2⟩
  else if chainId = 50 then some ⟨50, "XDC", 18⟩
  else none

def NORMALIZED_DECIMALS : Nat := 18

/-- The expression SUPPORTED_CHAINS[id]?.decimals || NORMALIZED_DECIMALS used
throughout decimals.ts: an unknown chain, or a (never configured) zero decimals
value, falls back to 18. -/
def chainDecimalsOr18 (chainId : Nat) : Nat :=
  match SUPPORTED_CHAINS chainId with
  | some c => if c.decimals = 0 then NORMALIZED_DECIMALS else c.decimals
  | none => NORMALIZED_DECIMALS

/-! ### Decimal conversion (packages/bridging-sdk/src/utils/decimals.ts) -/

/-- normalizeAmount: converts an amount from native decimals to the normalized
18-decimal representation. -/
def normalizeAmount (amount : Nat) (fromChainId : Nat) : Nat :=
  let fromDecimals := chainDecimalsOr18 fromChainId
  if fromDecimals = NORMALIZED_DECIMALS then amount
  else if fromDecimals > NORMALIZED_DECIMALS then
    amount / 10 ^ (fromDecimals - NORMALIZED_DECIMALS)
  else
    amount * 10 ^ (NORMALIZED_DECIMALS - fromDecimals)

/-- denormalizeAmount: converts an amount from the normalized 18-decimal
representation back to native decimals (truncating division when the native
precision is coarser). -/
def denormalizeAmount (amount : Nat) (toChainId : Nat) : Nat :=
  let toDecimals := chainDecimalsOr18 toChainId
  if toDecimals = NORMALIZED_DECIMALS then amount
  else if toDecimals > NORMALIZED_DECIMALS then
    amount * 10 ^ (toDecimals - NORMALIZED_DECIMALS)
  else
    amount / 10 ^ (NORMALIZED_DECIMALS - toDecimals)

/-! ### Claims C1 and C2 -/

/-- C1 (counterexample): the claim asserts the round-trip
denormalizeAmount (normalizeAmount x c) c is lossy for chains with fewer than
18 native decimals (callers must not assume it returns x).  On the 2-decimal
chain Fuse (id 122) with x = 7 the round-trip returns exactly 7; were the
round-trip truncating at 18-decimal scale it would return 0. -/
theorem roundtrip_not_lossy_at_2dec :
    denormalizeAmount (normalizeAmount 7 122) 122 = 7 := by decide

/-- C1 (amended): for every supported chain with native decimals at most 18,
denormalizing after normalizing returns the input exactly, for 18-decimal and
lower-decimal chains alike; lossiness arises only in the reverse composition,
which truncates an 18-decimal amount down to a multiple of 10 ^ (18 - d). -/
theorem denormalize_normalize_roundtrip (x y chainId : Nat) (c : BridgeChain)
    (hc : SUPPORTED_CHAINS chainId = some c) (hd : c.decimals ≤ 18) :
    denormalizeAmount (normalizeAmount x chainId) chainId = x ∧
    normalizeAmount (denormalizeAmount y chainId) chainId =
      y / 10 ^ (18 - chainDecimalsOr18 chainId) * 10 ^ (18 - chainDecimalsOr18 chainId) := by
  have hdec : chainDecimalsOr18 chainId = c.decimals ∧
      (c.decimals = 18 ∨ c.decimals = 2) := by
    unfold SUPPORTED_CHAINS at hc
    unfold chainDecimalsOr18 SUPPORTED_CHAINS
    split_ifs at hc <;> simp_all <;> subst hc <;> simp
  rcases hdec with ⟨hdec, h18 | h2⟩
  · constructor
    · unfold normalizeAmount denormalizeAmount NORMALIZED_DECIMALS
      rw [hdec, h18]
      simp
    · unfold normalizeAmount denormalizeAmount NORMALIZED_DECIMALS
      rw [hdec, h18]
      simp
  · have hpow : (0:Nat) < 10 ^ (18 - 2) := by positivity
    constructor
    · unfold normalizeAmount denormalizeAmount NORMALIZED_DECIMALS
      rw [hdec, h2]
      simp only [show (2:Nat) ≠ 18 by decide, if_false, show ¬ (2:Nat) > 18 by decide]
      exact Nat.mul_div_cancel x hpow
    · unfold normalizeAmount denormalizeAmount NORMALIZED_DECIMALS
      rw [hdec, h2]
      simp only [show (2:Nat) ≠ 18 by decide, if_false, show ¬ (2:Nat) > 18 by decide]

/-- C1 witness: instantiates the amended round-trip theorem on Fuse (2 native
decimals) at x = 115 and y = 1.15e18 + 5 (the latter showing the reverse
composition truncates). -/
theorem denormalize_normalize_roundtrip_witness :
    denormalizeAmount (normalizeAmount 115 122) 122 = 115 ∧
    normalizeAmount (denormalizeAmount 1150000000000000005 122) 122 =
      1150000000000000005 / 10 ^ (18 - chainDecimalsOr18 122) * 10 ^ (18 - chainDecimalsOr18 122) :=
  denormalize_normalize_roundtrip 115 1150000000000000005 122 ⟨122, "Fuse", 2⟩
    (by decide) (by decide)

/-- C2: normalizeAmount is the identity on 18-decimal chains and multiplies by
10 ^ (18 - d) on chains with d < 18 native decimals; in particular 115 units of
the 2-decimal chain Fuse normalize to 1_150_000_000_000_000_000. -/
theorem normalizeAmount_spec :
    (∀ (x chainId : Nat) (c : BridgeChain), SUPPORTED_CHAINS chainId = some c →
      (c.decimals = 18 → normalizeAmount x chainId = x) ∧
      (c.decimals < 18 → c.decimals ≠ 0 →
        normalizeAmount x chainId = x * 10 ^ (18 - c.decimals))) ∧
    normalizeAmount 115 122 = 1150000000000000000 := by
  constructor
  · intro x chainId c hc
    have hdec : chainDecimalsOr18 chainId = (if c.decimals = 0 then 18 else c.decimals) := by
      unfold chainDecimalsOr18 NORMALIZED_DECIMALS
      rw [hc]
    constructor
    · intro h18
      unfold normalizeAmount NORMALIZED_DECIMALS
      rw [hdec, h18]
      simp
    · intro hlt hne
      unfold normalizeAmount NORMALIZED_DECIMALS
      rw [hdec, if_neg hne]
      rw [if_neg (by omega), if_neg (by omega)]
  · decide

/-- C2 witness: the general part of the claim instantiated on Celo (18 dec,
identity) and Fuse (2 dec, multiply by 10^16). -/
theorem normalizeAmount_spec_witness :
    (normalizeAmount 9 42220 = 9) ∧ (normalizeAmount 9 122 = 9 * 10 ^ (18 - 2)) :=
  ⟨(normalizeAmount_spec.1 9 42220 ⟨42220, "Celo", 18⟩ (by decide)).1 (by decide),
   (normalizeAmount_spec.1 9 122 ⟨122, "Fuse", 2⟩ (by decide)).2 (by decide) (by decide)⟩

/-! ### String machinery

JavaScript strings are modelled as lists of characters.  The pieces below
embed the exact string operations used by formatAmount / parseAmount /
parseNativeFee: bigint-to-decimal printing (toString), BigInt(string)
parsing, padStart / padEnd, the trailing-zero strip replace(/0+$/, ""),
and String.prototype.split on a single-character separator. -/

/-- The decimal digit character for n < 10. -/
def digitChar (n : Nat) : Char := Char.ofNat (48 + n)

/-- The numeric value of a decimal digit character, none for other chars. -/
def digitVal? (c : Char) : Option Nat :=
  if 48 ≤ c.toNat ∧ c.toNat ≤ 57 then some (c.toNat - 48) else none

/-- Recursion worker for natToDigits with an explicit structural bound; the
bound only has to exceed the argument, since n / 10 < n. -/
def natToDigitsFuel : Nat → Nat → List Char
  | 0, _ => []
  | fuel + 1, n =>
    if n < 10 then [digitChar n]
    else natToDigitsFuel fuel (n / 10) ++ [digitChar (n % 10)]

/-- bigint .toString(): the decimal digits of n, most significant first. -/
def natToDigits (n : Nat) : List Char := natToDigitsFuel (n + 1) n

def parseDigitsAux : List Char → Nat → Option Nat
  | [], acc => some acc
  | c :: cs, acc =>
    match digitVal? c with
    | some d => parseDigitsAux cs (10 * acc + d)
    | none => none

/-- BigInt(string) restricted to the non-negative decimal notation this SDK
feeds it: the empty string converts to 0, a digit string to its value, and any
other character models the thrown SyntaxError as none. -/
def bigIntOfDigits (s : List Char) : Option Nat :=
  if s = [] then some 0 else parseDigitsAux s 0

/-- String.prototype.padStart(len, c) for a single pad character. -/
def padStart (s : List Char) (len : Nat) (c : Char) : List Char :=
  List.replicate (len - s.length) c ++ s

/-- String.prototype.padEnd(len, c) for a single pad character. -/
def padEnd (s : List Char) (len : Nat) (c : Char) : List Char :=
  s ++ List.replicate (len - s.length) c

/-- .replace(/0+$/, ""): strip trailing zero characters. -/
def dropTrailingZeros (s : List Char) : List Char :=
  (s.reverse.dropWhile (fun c => c == '0')).reverse

/-- String.prototype.split on a one-character separator. -/
def splitOnChar (sep : Char) : List Char → List (List Char)
  | [] => [[]]
  | c :: cs =>
    if c = sep then [] :: splitOnChar sep cs
    else
      match splitOnChar sep cs with
      | [] => [[c]]
      | p :: ps => (c :: p) :: ps

/-- The total value of a digit string (used to state the parse theorems). -/
def digitsValAux : List Char → Nat → Nat
  | [], acc => acc
  | c :: cs, acc => digitsValAux cs (10 * acc + (c.toNat - 48))

def digitsVal (s : List Char) : Nat := digitsValAux s 0

/-! ### formatAmount / parseAmount (utils/decimals.ts)

The source's local bindings divisor = 10^decimals, whole = amount / divisor
and fractional = amount % divisor are inlined. -/

/-- formatAmount: human-readable decimal string of a fixed-point integer. -/
def formatAmount (amount decimals : Nat) : List Char :=
  if amount % 10 ^ decimals = 0 then natToDigits (amount / 10 ^ decimals)
  else
    natToDigits (amount / 10 ^ decimals) ++ '.' ::
      dropTrailingZeros (padStart (natToDigits (amount % 10 ^ decimals)) decimals '0')

/-- The fractional-part processing of parseAmount: digits beyond decimals are
sliced off, fewer digits are right-padded with zeros, and the argument to
BigInt is replaced by "0" when empty. -/
def fracDigits (f : List Char) (decimals : Nat) : List Char :=
  let f2 := if decimals < f.length then f.take decimals else padEnd f decimals '0'
  if f2 = [] then ['0'] else f2

/-- parseAmount: parses a human-entered decimal string into a fixed-point
integer; none models the exception BigInt throws on a non-numeric part
(Option.bind propagates it, as a thrown exception would).  parts[0] || "0"
becomes headD plus the emptiness test, and parts[1] || "" becomes
tail.headD []. -/
def parseAmount (amount : List Char) (decimals : Nat) : Option Nat :=
  if amount = [] ∨ amount = ['0'] then some 0
  else
    (bigIntOfDigits
        (if (splitOnChar '.' amount).headD [] = [] then ['0']
         else (splitOnChar '.' amount).headD [])).bind fun whole =>
      (bigIntOfDigits
          (fracDigits ((splitOnChar '.' amount).tail.headD []) decimals)).map
        fun fractional => whole * 10 ^ decimals + fractional

/-! ### Helper lemmas about the string machinery -/

theorem digitVal_digitChar {k : Nat} (hk : k < 10) : digitVal? (digitChar k) = some k := by
  interval_cases k <;> decide

theorem natToDigitsFuel_congr :
    ∀ fuel1 fuel2 n : Nat, n < fuel1 → n < fuel2 →
      natToDigitsFuel fuel1 n = natToDigitsFuel fuel2 n := by
  intro fuel1
  induction fuel1 with
  | zero => intro fuel2 n h1; omega
  | succ f1 ih =>
    intro fuel2 n h1 h2
    cases fuel2 with
    | zero => omega
    | succ f2 =>
      simp only [natToDigitsFuel]
      by_cases hn : n < 10
      · simp [hn]
      · rw [if_neg hn, if_neg hn]
        have hdiv : n / 10 < n := Nat.div_lt_self (by omega) (by omega)
        rw [ih f2 (n / 10) (by omega) (by omega)]

theorem natToDigits_of_lt {n : Nat} (h : n < 10) : natToDigits n = [digitChar n] := by
  unfold natToDigits
  have he : natToDigitsFuel (n + 1) n =
      if n < 10 then [digitChar n]
      else natToDigitsFuel n (n / 10) ++ [digitChar (n % 10)] := rfl
  rw [he, if_pos h]

theorem natToDigits_of_ge {n : Nat} (h : ¬ n < 10) :
    natToDigits n = natToDigits (n / 10) ++ [digitChar (n % 10)] := by
  unfold natToDigits
  have he : natToDigitsFuel (n + 1) n =
      if n < 10 then [digitChar n]
      else natToDigitsFuel n (n / 10) ++ [digitChar (n % 10)] := rfl
  rw [he, if_neg h]
  have hdiv : n / 10 < n := Nat.div_lt_self (by omega) (by omega)
  rw [natToDigitsFuel_congr n (n / 10 + 1) (n / 10) (by omega) (by omega)]

theorem natToDigits_ne_nil (n : Nat) : natToDigits n ≠ [] := by
  by_cases h : n < 10
  · rw [natToDigits_of_lt h]; simp
  · rw [natToDigits_of_ge h]; simp

theorem natToDigits_digits (n : Nat) : ∀ c ∈ natToDigits n, (digitVal? c).isSome := by
  induction n using Nat.strong_induction_on with
  | _ n ih =>
    by_cases h : n < 10
    · rw [natToDigits_of_lt h]
      intro c hc
      simp only [List.mem_singleton] at hc
      subst hc
      rw [digitVal_digitChar h]
      rfl
    · rw [natToDigits_of_ge h]
      intro c hc
      rcases List.mem_append.mp hc with h1 | h2
      · exact ih (n / 10) (Nat.div_lt_self (by omega) (by omega)) c h1
      · simp only [List.mem_singleton] at h2
        subst h2
        rw [digitVal_digitChar (Nat.mod_lt _ (by omega))]
        rfl

theorem digit_ne_dot {c : Char} (h : (digitVal? c).isSome) : c ≠ '.' := by
  intro hc
  subst hc
  revert h
  decide

theorem parseDigitsAux_append (s t : List Char) (acc : Nat) :
    parseDigitsAux (s ++ t) acc =
      match parseDigitsAux s acc with
      | some a => parseDigitsAux t a
      | none => none := by
  induction s generalizing acc with
  | nil => simp [parseDigitsAux]
  | cons c cs ih =>
    simp only [List.cons_append, parseDigitsAux]
    cases digitVal? c with
    | none => rfl
    | some d => exact ih _

theorem parseDigitsAux_natToDigits (n : Nat) : ∀ acc,
    parseDigitsAux (natToDigits n) acc = some (acc * 10 ^ (natToDigits n).length + n) := by
  induction n using Nat.strong_induction_on with
  | _ n ih =>
    intro acc
    by_cases h : n < 10
    · rw [natToDigits_of_lt h]
      simp [parseDigitsAux, digitVal_digitChar h]
      omega
    · rw [natToDigits_of_ge h]
      rw [parseDigitsAux_append]
      rw [ih (n / 10) (Nat.div_lt_self (by omega) (by omega)) acc]
      have hmod : n % 10 < 10 := Nat.mod_lt _ (by omega)
      simp only [parseDigitsAux, digitVal_digitChar hmod, List.length_append,
        List.length_singleton]
      have hdm : 10 * (n / 10) + n % 10 = n := Nat.div_add_mod n 10
      have hpow : 10 ^ ((natToDigits (n / 10)).length + 1) =
          10 ^ (natToDigits (n / 10)).length * 10 := by
        rw [pow_succ]
      congr 1
      rw [hpow, ← mul_assoc]
      set Q := acc * 10 ^ (natToDigits (n / 10)).length
      omega

theorem parseDigitsAux_replicate (k acc : Nat) :
    parseDigitsAux (List.replicate k '0') acc = some (acc * 10 ^ k) := by
  induction k generalizing acc with
  | zero => simp [parseDigitsAux]
  | succ k ih =>
    simp only [List.replicate_succ, parseDigitsAux,
      show digitVal? '0' = some 0 from by decide]
    rw [ih]
    congr 1
    ring

theorem bigIntOfDigits_natToDigits (n : Nat) : bigIntOfDigits (natToDigits n) = some n := by
  unfold bigIntOfDigits
  rw [if_neg (natToDigits_ne_nil n), parseDigitsAux_natToDigits]
  simp

theorem parseDigitsAux_padStart (f d : Nat) :
    parseDigitsAux (padStart (natToDigits f) d '0') 0 = some f := by
  unfold padStart
  rw [parseDigitsAux_append, parseDigitsAux_replicate]
  simp only [Nat.zero_mul]
  rw [parseDigitsAux_natToDigits]
  simp

theorem bigIntOfDigits_padStart (f d : Nat) :
    bigIntOfDigits (padStart (natToDigits f) d '0') = some f := by
  unfold bigIntOfDigits
  rw [if_neg (by simp [padStart, natToDigits_ne_nil f]), parseDigitsAux_padStart]

theorem natToDigits_length_le : ∀ n k : Nat, 1 ≤ k → n < 10 ^ k →
    (natToDigits n).length ≤ k := by
  intro n
  induction n using Nat.strong_induction_on with
  | _ n ih =>
    intro k hk h
    by_cases hn : n < 10
    · rw [natToDigits_of_lt hn]
      simpa using hk
    · rw [natToDigits_of_ge hn]
      have hk2 : 2 ≤ k := by
        rcases Nat.lt_or_ge k 2 with hlt | hge
        · interval_cases k <;> simp_all <;> omega
        · exact hge
      have hpow : 10 ^ k = 10 ^ (k - 1) * 10 := by
        rw [← pow_succ]
        congr 1
        omega
      have hdiv : n / 10 < 10 ^ (k - 1) := by
        rw [Nat.div_lt_iff_lt_mul (by omega)]
        omega
      have := ih (n / 10) (Nat.div_lt_self (by omega) (by omega)) (k - 1) (by omega) hdiv
      simp only [List.length_append, List.length_singleton]
      omega

theorem splitOnChar_of_not_mem {sep : Char} {s : List Char} (h : ∀ c ∈ s, c ≠ sep) :
    splitOnChar sep s = [s] := by
  induction s with
  | nil => rfl
  | cons c cs ih =>
    unfold splitOnChar
    rw [if_neg (h c (by simp))]
    rw [ih (fun x hx => h x (by simp [hx]))]

theorem splitOnChar_append {sep : Char} {A : List Char} (B : List Char)
    (h : ∀ c ∈ A, c ≠ sep) :
    splitOnChar sep (A ++ sep :: B) = A :: splitOnChar sep B := by
  induction A with
  | nil =>
    simp only [List.nil_append]
    conv_lhs => rw [splitOnChar]
    rw [if_pos rfl]
  | cons c cs ih =>
    simp only [List.cons_append]
    conv_lhs => rw [splitOnChar]
    rw [if_neg (h c (by simp))]
    rw [ih (fun x hx => h x (by simp [hx]))]

theorem dropTrailingZeros_eq_append (s : List Char) :
    s = dropTrailingZeros s ++
      List.replicate (s.length - (dropTrailingZeros s).length) '0' := by
  unfold dropTrailingZeros
  have h1 : s.reverse.takeWhile (fun c => c == '0') ++
      s.reverse.dropWhile (fun c => c == '0') = s.reverse :=
    List.takeWhile_append_dropWhile _ _
  have h2 : s.reverse.takeWhile (fun c => c == '0') =
      List.replicate (s.reverse.takeWhile (fun c => c == '0')).length '0' := by
    apply List.eq_replicate_of_mem
    intro b hb
    have hp := List.mem_takeWhile_imp hb
    simpa using hp
  have hlen := congrArg List.length h1
  simp only [List.length_append, List.length_reverse] at hlen
  conv_lhs => rw [← List.reverse_reverse s, ← h1]
  rw [List.reverse_append, h2, List.reverse_replicate]
  congr 2
  simp only [List.length_reverse]
  omega

theorem dropTrailingZeros_length_le (s : List Char) :
    (dropTrailingZeros s).length ≤ s.length := by
  unfold dropTrailingZeros
  calc (s.reverse.dropWhile (fun c => c == '0')).reverse.length
      = (s.reverse.dropWhile (fun c => c == '0')).length := List.length_reverse _
    _ ≤ s.reverse.length := (List.dropWhile_sublist _).length_le
    _ = s.length := List.length_reverse _

theorem head?_dropWhile_eq_some {p : Char → Bool} {l : List Char} {c : Char}
    (h : (l.dropWhile p).head? = some c) : p c = false := by
  have hm := List.head?_dropWhile_not p l
  rw [h] at hm
  exact hm

theorem dropTrailingZeros_last_ne (s : List Char) :
    ∀ c, (dropTrailingZeros s).getLast? = some c → c ≠ '0' := by
  intro c hc
  unfold dropTrailingZeros at hc
  rw [List.getLast?_reverse] at hc
  have := head?_dropWhile_eq_some hc
  intro h
  subst h
  simp at this

theorem mem_dropTrailingZeros {s : List Char} {c : Char}
    (h : c ∈ dropTrailingZeros s) : c ∈ s := by
  unfold dropTrailingZeros at h
  rw [List.mem_reverse] at h
  have hsub := (List.dropWhile_sublist (fun c => c == '0')).subset h
  rwa [List.mem_reverse] at hsub

theorem parseDigitsAux_of_digits {s : List Char}
    (h : ∀ c ∈ s, (digitVal? c).isSome) :
    ∀ acc, parseDigitsAux s acc = some (digitsValAux s acc) := by
  induction s with
  | nil => intro acc; rfl
  | cons c cs ih =>
    intro acc
    have hc := h c (by simp)
    have hval : digitVal? c = some (c.toNat - 48) := by
      unfold digitVal? at hc ⊢
      by_cases hcond : 48 ≤ c.toNat ∧ c.toNat ≤ 57
      · rw [if_pos hcond]
      · rw [if_neg hcond] at hc
        simp at hc
    simp only [parseDigitsAux, hval]
    exact ih (fun x hx => h x (by simp [hx])) _

theorem digitsValAux_append (s t : List Char) (acc : Nat) :
    digitsValAux (s ++ t) acc = digitsValAux t (digitsValAux s acc) := by
  induction s generalizing acc with
  | nil => rfl
  | cons c cs ih =>
    simp only [List.cons_append, digitsValAux]
    exact ih _

theorem digitsValAux_replicate (k acc : Nat) :
    digitsValAux (List.replicate k '0') acc = acc * 10 ^ k := by
  induction k generalizing acc with
  | zero => simp [digitsValAux]
  | succ k ih =>
    simp only [List.replicate_succ, digitsValAux]
    rw [ih]
    have : ('0' : Char).toNat - 48 = 0 := by decide
    rw [this]
    ring

theorem fracDigits_eq (f : List Char) (d : Nat) :
    fracDigits f d =
      if (if d < f.length then f.take d else padEnd f d '0') = [] then ['0']
      else if d < f.length then f.take d else padEnd f d '0' := rfl

theorem dot_append_guard {W F : List Char} (hW : W ≠ []) :
    ¬(W ++ '.' :: F = [] ∨ W ++ '.' :: F = ['0']) := by
  push_neg
  refine ⟨by simp, ?_⟩
  intro h
  have hlen := congrArg List.length h
  have hWlen : 0 < W.length := List.length_pos.mpr hW
  simp only [List.length_append, List.length_cons, List.length_nil] at hlen
  omega

theorem bigIntOfDigits_fracDigits_nil (d : Nat) :
    bigIntOfDigits (fracDigits [] d) = some 0 := by
  by_cases hd : d = 0
  · subst hd
    decide
  · have h1 : fracDigits [] d = List.replicate d '0' := by
      rw [fracDigits_eq]
      simp [padEnd, hd]
    rw [h1]
    unfold bigIntOfDigits
    rw [if_neg (by simp [hd]), parseDigitsAux_replicate]
    simp

theorem bigIntOfDigits_fracDigits {F : List Char} (d : Nat)
    (hF : ∀ c ∈ F, (digitVal? c).isSome) :
    bigIntOfDigits (fracDigits F d) =
      some (digitsVal (F.take d) * 10 ^ (d - min F.length d)) := by
  rw [fracDigits_eq]
  by_cases hlen : d < F.length
  · rw [if_pos hlen]
    have hmin : min F.length d = d := by omega
    rw [hmin, Nat.sub_self, pow_zero, Nat.mul_one]
    by_cases hd0 : d = 0
    · subst hd0
      simp [bigIntOfDigits, digitsVal, digitsValAux, parseDigitsAux]
      decide
    · have htne : F.take d ≠ [] := by
        intro h
        have hl := congrArg List.length h
        simp only [List.length_take, List.length_nil] at hl
        omega
      rw [if_neg htne]
      unfold bigIntOfDigits
      rw [if_neg htne,
        parseDigitsAux_of_digits (fun c hc => hF c (List.mem_of_mem_take hc))]
      rfl
  · rw [if_neg hlen]
    have hFlen : F.length ≤ d := by omega
    have htake : F.take d = F := List.take_of_length_le hFlen
    have hmin : min F.length d = F.length := by omega
    rw [htake, hmin]
    unfold padEnd
    by_cases hpe : F ++ List.replicate (d - F.length) '0' = []
    · rw [if_pos hpe]
      rcases List.append_eq_nil.mp hpe with ⟨hF0, hr0⟩
      have hd0 : d = 0 := by
        have := congrArg List.length hr0
        simp only [List.length_replicate, List.length_nil] at this
        subst hF0
        simpa using this
      subst hF0
      subst hd0
      simp [bigIntOfDigits, digitsVal, digitsValAux, parseDigitsAux]
      decide
    · rw [if_neg hpe]
      unfold bigIntOfDigits
      rw [if_neg hpe]
      have hdigs : ∀ c ∈ F ++ List.replicate (d - F.length) '0',
          (digitVal? c).isSome := by
        intro c hc
        rcases List.mem_append.mp hc with h1 | h2
        · exact hF c h1
        · rw [List.eq_of_mem_replicate h2]
          decide
      rw [parseDigitsAux_of_digits hdigs]
      congr 1
      show digitsValAux (F ++ List.replicate (d - F.length) '0') 0 = _
      rw [digitsValAux_append, digitsValAux_replicate]
      rfl

/-- Decomposition of formatAmount in the nonzero-fractional case: the printed
fractional digits t are nonempty, end in a nonzero digit, fit in the
precision, and carry exactly the value of the (scaled) fractional part. -/
theorem formatAmount_frac_decomp (x d : Nat) (hf : x % 10 ^ d ≠ 0) :
    ∃ t : List Char, t ≠ [] ∧ (∀ c, t.getLast? = some c → c ≠ '0') ∧
      t.length ≤ d ∧ (∀ c ∈ t, (digitVal? c).isSome) ∧
      formatAmount x d = natToDigits (x / 10 ^ d) ++ '.' :: t ∧
      fracDigits t d = padStart (natToDigits (x % 10 ^ d)) d '0' ∧
      bigIntOfDigits (fracDigits t d) = some (x % 10 ^ d) ∧
      digitsVal t * 10 ^ (d - t.length) = x % 10 ^ d := by
  have hd1 : 1 ≤ d := by
    rcases Nat.eq_zero_or_pos d with h0 | h1
    · subst h0
      simp [Nat.mod_one] at hf
    · exact h1
  have hpow : (0:Nat) < 10 ^ d := pow_pos (by norm_num) d
  have hfrac_lt : x % 10 ^ d < 10 ^ d := Nat.mod_lt _ hpow
  set s := padStart (natToDigits (x % 10 ^ d)) d '0' with hs
  set t := dropTrailingZeros s with ht
  have hL : (natToDigits (x % 10 ^ d)).length ≤ d :=
    natToDigits_length_le _ d hd1 hfrac_lt
  have hslen : s.length = d := by
    rw [hs]
    unfold padStart
    simp only [List.length_append, List.length_replicate]
    omega
  have hsne : s ≠ [] := by
    intro h
    rw [h] at hslen
    simp only [List.length_nil] at hslen
    omega
  have hsdig : ∀ c ∈ s, (digitVal? c).isSome := by
    intro c hc
    rw [hs] at hc
    unfold padStart at hc
    rcases List.mem_append.mp hc with h1 | h2
    · rw [List.eq_of_mem_replicate h1]
      decide
    · exact natToDigits_digits _ c h2
  have hsparse : parseDigitsAux s 0 = some (x % 10 ^ d) := by
    rw [hs]
    exact parseDigitsAux_padStart _ _
  have hdecomp : s = t ++ List.replicate (s.length - t.length) '0' := by
    rw [ht]
    exact dropTrailingZeros_eq_append s
  have htlen : t.length ≤ d := by
    have := dropTrailingZeros_length_le s
    rw [← ht] at this
    omega
  have htne : t ≠ [] := by
    intro h
    rw [h, List.nil_append] at hdecomp
    rw [hdecomp, parseDigitsAux_replicate] at hsparse
    simp only [Nat.zero_mul, Option.some.injEq] at hsparse
    exact hf hsparse.symm
  have hlast := dropTrailingZeros_last_ne s
  rw [← ht] at hlast
  have htdig : ∀ c ∈ t, (digitVal? c).isSome := by
    intro c hc
    apply hsdig
    rw [ht] at hc
    exact mem_dropTrailingZeros hc
  have hpe : padEnd t d '0' = s := by
    unfold padEnd
    conv_rhs => rw [hdecomp]
    congr 2
    omega
  have hfd : fracDigits t d = s := by
    rw [fracDigits_eq]
    rw [if_neg (show ¬ d < t.length by omega)]
    rw [hpe]
    rw [if_neg hsne]
  have hbig : bigIntOfDigits (fracDigits t d) = some (x % 10 ^ d) := by
    rw [hfd]
    unfold bigIntOfDigits
    rw [if_neg hsne]
    exact hsparse
  have hval : digitsVal t * 10 ^ (d - t.length) = x % 10 ^ d := by
    have h1 : parseDigitsAux s 0 = some (digitsValAux s 0) :=
      parseDigitsAux_of_digits hsdig 0
    rw [hsparse] at h1
    have h2 := Option.some.inj h1
    have h3 : digitsValAux s 0 = digitsVal t * 10 ^ (s.length - t.length) := by
      conv_lhs => rw [hdecomp]
      rw [digitsValAux_append, digitsValAux_replicate]
      rfl
    rw [h3, hslen] at h2
    exact h2.symm
  have hfmt : formatAmount x d = natToDigits (x / 10 ^ d) ++ '.' :: t := by
    rw [formatAmount, if_neg hf, ht, hs]
  exact ⟨t, htne, hlast, htlen, htdig, hfmt, hfd, hbig, hval⟩

/-- C5: formatting a fixed-point integer and parsing the result back is the
identity, for every amount and every decimals value. -/
theorem parse_format_roundtrip (x d : Nat) :
    parseAmount (formatAmount x d) d = some x := by
  have hdm := Nat.div_add_mod x (10 ^ d)
  by_cases hf : x % 10 ^ d = 0
  · rw [formatAmount, if_pos hf]
    by_cases hw : x / 10 ^ d = 0
    · have hx0 : x = 0 := by
        rw [hw, hf, Nat.mul_zero, Nat.add_zero] at hdm
        exact hdm.symm
      subst hx0
      rw [Nat.zero_div, natToDigits_of_lt (by norm_num)]
      rw [show digitChar 0 = '0' from by decide]
      rw [parseAmount, if_pos (Or.inr rfl)]
    · have hne := natToDigits_ne_nil (x / 10 ^ d)
      have hne0 : natToDigits (x / 10 ^ d) ≠ ['0'] := by
        intro h
        have hb := bigIntOfDigits_natToDigits (x / 10 ^ d)
        rw [h] at hb
        rw [show bigIntOfDigits ['0'] = some 0 from by decide] at hb
        exact hw (Option.some.inj hb).symm
      rw [parseAmount, if_neg (by push_neg; exact ⟨hne, hne0⟩)]
      rw [splitOnChar_of_not_mem
        (fun c hc => digit_ne_dot (natToDigits_digits _ c hc))]
      simp only [List.headD_cons, List.tail_cons, List.headD_nil]
      rw [if_neg hne]
      rw [bigIntOfDigits_natToDigits, bigIntOfDigits_fracDigits_nil]
      simp only [Option.some_bind, Option.map_some']
      congr 1
      rw [hf, Nat.add_zero] at hdm
      rw [Nat.add_zero, Nat.mul_comm]
      exact hdm
  · obtain ⟨t, htne, hlast, htlen, htdig, hfmt, hfd, hbig, hval⟩ :=
      formatAmount_frac_decomp x d hf
    rw [hfmt]
    rw [parseAmount, if_neg (dot_append_guard (natToDigits_ne_nil _))]
    rw [splitOnChar_append t
      (fun c hc => digit_ne_dot (natToDigits_digits _ c hc))]
    rw [splitOnChar_of_not_mem (fun c hc => digit_ne_dot (htdig c hc))]
    simp only [List.headD_cons, List.tail_cons]
    rw [if_neg (natToDigits_ne_nil _)]
    rw [bigIntOfDigits_natToDigits, hbig]
    simp only [Option.some_bind, Option.map_some']
    congr 1
    rw [Nat.mul_comm]
    exact hdm

/-- C6: parseAmount truncates fractional digits beyond the precision without
rounding, zero-pads missing fractional digits on the right, returns 0 on the
empty string and on "0", and parses "1.5" at 18 decimals to
1_500_000_000_000_000_000. -/
theorem parseAmount_spec :
    (∀ (W F : List Char) (d : Nat), W ≠ [] →
      (∀ c ∈ W, (digitVal? c).isSome) →
      (∀ c ∈ F, (digitVal? c).isSome) →
      parseAmount (W ++ '.' :: F) d =
        some (digitsVal W * 10 ^ d +
          digitsVal (F.take d) * 10 ^ (d - min F.length d))) ∧
    parseAmount [] 18 = some 0 ∧
    parseAmount ['0'] 18 = some 0 ∧
    parseAmount ('1' :: '.' :: ['5']) 18 = some 1500000000000000000 := by
  refine ⟨?_, by decide, by decide, by decide⟩
  intro W F d hWne hWdig hFdig
  rw [parseAmount, if_neg (dot_append_guard hWne)]
  rw [splitOnChar_append F (fun c hc => digit_ne_dot (hWdig c hc))]
  rw [splitOnChar_of_not_mem (fun c hc => digit_ne_dot (hFdig c hc))]
  simp only [List.headD_cons, List.tail_cons]
  rw [if_neg hWne]
  have hW : bigIntOfDigits W = some (digitsVal W) := by
    unfold bigIntOfDigits
    rw [if_neg hWne, parseDigitsAux_of_digits hWdig]
    rfl
  rw [hW, bigIntOfDigits_fracDigits d hFdig]
  simp only [Option.some_bind, Option.map_some']

/-- C6 witness: "2.345" at 2 decimals, exercising both the digit truncation
and the general formula. -/
theorem parseAmount_spec_witness :
    parseAmount (['2'] ++ '.' :: ['3', '4', '5']) 2 =
      some (digitsVal ['2'] * 10 ^ 2 +
        digitsVal ((['3', '4', '5'] : List Char).take 2) *
          10 ^ (2 - min (['3', '4', '5'] : List Char).length 2)) :=
  parseAmount_spec.1 ['2'] ['3', '4', '5'] 2 (by decide) (by decide) (by decide)

/-- C7: formatAmount prints the minimal decimal string: no decimal point when
the fractional part is zero, otherwise the fractional digits with trailing
zeros stripped (never ending in a zero digit) carrying exactly the fractional
value; 10^18 at 18 decimals prints as "1" and 1.5e18 as "1.5". -/
theorem formatAmount_spec :
    (∀ x d : Nat, x % 10 ^ d = 0 →
      formatAmount x d = natToDigits (x / 10 ^ d) ∧ '.' ∉ formatAmount x d) ∧
    (∀ x d : Nat, x % 10 ^ d ≠ 0 →
      ∃ t : List Char, t ≠ [] ∧ (∀ c, t.getLast? = some c → c ≠ '0') ∧
        t.length ≤ d ∧
        formatAmount x d = natToDigits (x / 10 ^ d) ++ '.' :: t ∧
        digitsVal t * 10 ^ (d - t.length) = x % 10 ^ d) ∧
    formatAmount (10 ^ 18) 18 = ['1'] ∧
    formatAmount 1500000000000000000 18 = '1' :: '.' :: ['5'] := by
  refine ⟨?_, ?_, by decide, by decide⟩
  · intro x d h
    have he : formatAmount x d = natToDigits (x / 10 ^ d) := by
      rw [formatAmount, if_pos h]
    refine ⟨he, ?_⟩
    rw [he]
    intro hmem
    exact digit_ne_dot (natToDigits_digits _ _ hmem) rfl
  · intro x d hf
    obtain ⟨t, htne, hlast, htlen, _, hfmt, _, _, hval⟩ :=
      formatAmount_frac_decomp x d hf
    exact ⟨t, htne, hlast, htlen, hfmt, hval⟩

/-- C7 witness: the no-dot case at 300 with 2 decimals and the fractional
case at 150 with 2 decimals. -/
theorem formatAmount_spec_witness :
    (formatAmount 300 2 = natToDigits (300 / 10 ^ 2) ∧ '.' ∉ formatAmount 300 2) ∧
    (∃ t : List Char, t ≠ [] ∧ (∀ c, t.getLast? = some c → c ≠ '0') ∧
      t.length ≤ 2 ∧
      formatAmount 150 2 = natToDigits (150 / 10 ^ 2) ++ '.' :: t ∧
      digitsVal t * 10 ^ (2 - t.length) = 150 % 10 ^ 2) :=
  ⟨formatAmount_spec.1 300 2 (by decide), formatAmount_spec.2.1 150 2 (by decide)⟩

/-! ### Protocols and fee estimation (utils/fees.ts) -/

inductive BridgeProtocol
  | AXELAR
  | LAYERZERO
deriving DecidableEq, Repr

/-- The string form of a protocol identifier, as interpolated into error
messages. -/
def protocolName : BridgeProtocol → String
  | .AXELAR => "AXELAR"
  | .LAYERZERO => "LAYERZERO"

structure FeeEstimate where
  fee : Nat
  feeInNative : String
  protocol : BridgeProtocol
deriving DecidableEq, Repr

deriving instance DecidableEq for Except

/-- FEE_MULTIPLIER is 1.1 in constants.ts; the buffer factor
Math.floor(FEE_MULTIPLIER * 100) evaluates to 110 (in IEEE-754 doubles,
1.1 * 100 = 110.00000000000001, whose floor is 110). -/
def FEE_MULTIPLIER_TIMES_100 : Nat := 110

/-- getChainName from utils/fees.ts: display code used in route keys, or the
thrown error for an unsupported chain id. -/
def getChainName (chainId : Nat) : Except String String :=
  if chainId = 42220 then .ok "CELO"
  else if chainId = 122 then .ok "FUSE"
  else if chainId = 1 then .ok "ETH"
  else if chainId = 50 then .ok "XDC"
  else .error ("Unsupported chain ID: " ++ Nat.repr chainId)

def allDigits (s : List Char) : Bool := s.all fun c => (digitVal? c).isSome

/-- The leading numeric token "I" or "I.F" of a fee quote, as integer part and
fractional digit list.  parseFloat returning NaN on a non-numeric token is
modelled as none. -/
def parseDecimal (s : List Char) : Option (Nat × List Char) :=
  match splitOnChar '.' s with
  | [i] => if i ≠ [] ∧ allDigits i then some (digitsVal i, []) else none
  | [i, f] =>
    if (i ≠ [] ∨ f ≠ []) ∧ allDigits i ∧ allDigits f then some (digitsVal i, f)
    else none
  | _ => none

/-- parseNativeFee from utils/fees.ts.  The source computes
BigInt(Math.floor(parseFloat(amountStr) * 10 ** decimals)) in IEEE-754
doubles; this model reads the decimal token exactly and takes
floor(value * 10^decimals) as (I*10^|F| + F) * 10^decimals / 10^|F|.
The two agree on quote strings whose scaled value is exactly representable
as a double (such as "2.0" at 18 decimals, the value the claims exercise);
the fee-buffer claim is stated conditionally on the parsed value, so it does
not depend on this rounding difference. -/
def parseNativeFee (feeString : List Char) (chainId : Nat) : Except String Nat :=
  if (splitOnChar ' ' feeString).headD [] = [] then .error "Invalid fee format"
  else
    match parseDecimal ((splitOnChar ' ' feeString).headD []) with
    | none => .error "Invalid fee amount"
    | some (intPart, fracPart) =>
      .ok ((intPart * 10 ^ fracPart.length + digitsVal fracPart) *
        10 ^ chainDecimalsOr18 chainId / 10 ^ fracPart.length)

/-- The fee table returned by the remote fee service: protocol identifier to
route-key/fee-string association list. -/
def GoodServerFeeResponse := BridgeProtocol → Option (List (String × String))

/-- getFeeEstimate from utils/fees.ts, over an already-fetched fee table:
protocol lookup, route-key construction with the AXL/LZ protocol-specific
route prefix, route lookup, fee parsing in the source chain's decimals and
the +10 percent safety buffer in integer arithmetic scaled by 100. -/
def getFeeEstimate (feeData : GoodServerFeeResponse) (fromChainId toChainId : Nat)
    (protocol : BridgeProtocol) : Except String FeeEstimate :=
  match feeData protocol with
  | none => .error ("No fee data available for protocol: " ++ protocolName protocol)
  | some protocolData =>
    match getChainName fromChainId, getChainName toChainId with
    | .error e, _ => .error e
    | _, .error e => .error e
    | .ok fromChainName, .ok toChainName =>
      match protocolData.lookup
          ((if protocol = BridgeProtocol.AXELAR then "AXL" else "LZ") ++ "_" ++
            fromChainName ++ "_TO_" ++ toChainName) with
      | none => .error ("No fee data available for route: " ++ fromChainName ++
          " to " ++ toChainName)
      | some feeString =>
        match parseNativeFee feeString.data fromChainId with
        | .error e => .error e
        | .ok fee =>
          .ok ⟨fee * FEE_MULTIPLIER_TIMES_100 / 100, feeString, protocol⟩

/-- The chain name read by the template literal in estimateFee's error path,
SUPPORTED_CHAINS[id].name.  (For an id outside the registry JavaScript would
throw a TypeError here; the constructor guarantees the current chain is
registered, and the claims only exercise registered ids.) -/
def chainNameOf (chainId : Nat) : String :=
  ((SUPPORTED_CHAINS chainId).map BridgeChain.name).getD "undefined"

/-- BridgingSDK.estimateFee from viem-sdk.ts: the protocol-support guard that
rejects Axelar when the current or target chain id is 50 (XDC) or 122 (Fuse),
then delegates to getFeeEstimate.  The cached-or-fetched fee table of the
source is the feeData parameter. -/
def estimateFee (currentChainId targetChainId : Nat) (protocol : BridgeProtocol)
    (feeData : GoodServerFeeResponse) : Except String FeeEstimate :=
  if protocol = BridgeProtocol.AXELAR ∧
      (currentChainId = 50 ∨ currentChainId = 122 ∨
        targetChainId = 50 ∨ targetChainId = 122) then
    .error ("Axelar bridging is not supported for " ++ chainNameOf currentChainId ++
      " or " ++ chainNameOf targetChainId)
  else
    getFeeEstimate feeData currentChainId targetChainId protocol

/-- A one-route fee table used for concrete instances: the spec's end-to-end
scenario table containing only AXL_CELO_TO_ETH at "2.0 Celo". -/
def demoFeeTable : GoodServerFeeResponse :=
  fun p => if p = BridgeProtocol.AXELAR then
    some [("AXL_CELO_TO_ETH", "2.0 Celo")] else none

/-- C3 (counterexample): the claim designates the 2-decimal chains Fuse (122)
and Ethereum (1) as the ones blocking Axelar.  In the code the blocked ids
are 50 (XDC, an 18-decimal chain) and 122: a CELO to ETH call passes the
guard and proceeds to estimation (here failing only on an empty fee table,
with the estimation error, not the protocol-unsupported error), while a CELO
to XDC call, which involves no 2-decimal chain, is rejected by the guard. -/
theorem axelar_guard_counterexample :
    estimateFee 42220 1 BridgeProtocol.AXELAR (fun _ => none) =
      Except.error "No fee data available for protocol: AXELAR" ∧
    estimateFee 42220 50 BridgeProtocol.AXELAR (fun _ => none) =
      Except.error "Axelar bridging is not supported for Celo or XDC" := by
  decide

/-- C3 (amended): estimateFee with protocol AXELAR fails fast with the
protocol-unsupported error, before any fee-table access, exactly when the
current or target chain id is 50 (XDC) or 122 (Fuse); otherwise no such
error is raised and the call proceeds to fee estimation. -/
theorem estimateFee_axelar_guard (cur tgt : Nat) (table : GoodServerFeeResponse) :
    (cur = 50 ∨ cur = 122 ∨ tgt = 50 ∨ tgt = 122 →
      estimateFee cur tgt BridgeProtocol.AXELAR table =
        Except.error ("Axelar bridging is not supported for " ++
          chainNameOf cur ++ " or " ++ chainNameOf tgt)) ∧
    (¬(cur = 50 ∨ cur = 122 ∨ tgt = 50 ∨ tgt = 122) →
      estimateFee cur tgt BridgeProtocol.AXELAR table =
        getFeeEstimate table cur tgt BridgeProtocol.AXELAR) := by
  constructor
  · intro h
    rw [estimateFee, if_pos ⟨rfl, h⟩]
  · intro h
    rw [estimateFee, if_neg (fun hc => h hc.2)]

/-- C3 witness: Fuse as the current chain triggers the guard for every fee
table, and CELO to ETH does not. -/
theorem estimateFee_axelar_guard_witness :
    estimateFee 122 42220 BridgeProtocol.AXELAR (fun _ => none) =
      Except.error ("Axelar bridging is not supported for " ++
        chainNameOf 122 ++ " or " ++ chainNameOf 42220) ∧
    estimateFee 42220 1 BridgeProtocol.AXELAR demoFeeTable =
      getFeeEstimate demoFeeTable 42220 1 BridgeProtocol.AXELAR :=
  ⟨(estimateFee_axelar_guard 122 42220 (fun _ => none)).1 (Or.inr (Or.inl rfl)),
   (estimateFee_axelar_guard 42220 1 demoFeeTable).2 (by decide)⟩

/-- C4: whenever getFeeEstimate succeeds, the returned fee is the parsed base
fee F buffered to floor(F * 110 / 100); on the spec's end-to-end scenario
(CELO to ETH via AXELAR, quote "2.0 Celo", 18 source decimals) it returns
2_200_000_000_000_000_000. -/
theorem getFeeEstimate_buffer :
    (∀ (table : GoodServerFeeResponse) (fromId toId : Nat) (p : BridgeProtocol)
      (est : FeeEstimate) (F : Nat),
      getFeeEstimate table fromId toId p = Except.ok est →
      parseNativeFee est.feeInNative.data fromId = Except.ok F →
      est.fee = F * 110 / 100) ∧
    getFeeEstimate demoFeeTable 42220 1 BridgeProtocol.AXELAR =
      Except.ok ⟨2200000000000000000, "2.0 Celo", BridgeProtocol.AXELAR⟩ := by
  constructor
  · intro table fromId toId p est F hok hparse
    unfold getFeeEstimate at hok
    cases hdata : table p with
    | none =>
      rw [hdata] at hok
      simp at hok
    | some protocolData =>
      rw [hdata] at hok
      dsimp only at hok
      cases hfrom : getChainName fromId with
      | error e =>
        rw [hfrom] at hok
        simp at hok
      | ok fromChainName =>
        rw [hfrom] at hok
        cases hto : getChainName toId with
        | error e =>
          rw [hto] at hok
          simp at hok
        | ok toChainName =>
          rw [hto] at hok
          dsimp only at hok
          cases hlook : protocolData.lookup
              ((if p = BridgeProtocol.AXELAR then "AXL" else "LZ") ++ "_" ++
                fromChainName ++ "_TO_" ++ toChainName) with
          | none =>
            rw [hlook] at hok
            simp at hok
          | some feeString =>
            rw [hlook] at hok
            dsimp only at hok
            cases hparse2 : parseNativeFee feeString.data fromId with
            | error e =>
              rw [hparse2] at hok
              simp at hok
            | ok fee =>
              rw [hparse2] at hok
              dsimp only at hok
              have hest := Except.ok.inj hok
              subst hest
              dsimp only at hparse ⊢
              rw [hparse2] at hparse
              have hF := Except.ok.inj hparse
              subst hF
              rfl
  · decide

/-- C4 witness: the general buffer law applied at the end-to-end scenario,
where the parsed base fee is 2e18 and the buffered fee 2.2e18. -/
theorem getFeeEstimate_buffer_witness :
    (⟨2200000000000000000, "2.0 Celo", BridgeProtocol.AXELAR⟩ : FeeEstimate).fee =
      2000000000000000000 * 110 / 100 :=
  getFeeEstimate_buffer.1 demoFeeTable 42220 1 BridgeProtocol.AXELAR
    ⟨2200000000000000000, "2.0 Celo", BridgeProtocol.AXELAR⟩ 2000000000000000000
    (by decide) (by decide)

/-! ### canBridge (viem-sdk.ts) -/

/-- BRIDGE_CONTRACT_ADDRESSES from constants.ts: the MessagePassingBridge
address, deployed identically on all four chains. -/
def BRIDGE_CONTRACT_ADDRESSES (chainId : Nat) : Option String :=
  if chainId = 42220 ∨ chainId = 122 ∨ chainId = 1 ∨ chainId = 50 then
    some "0xa3247276dbcc76dd7705273f766eb3e8a5ecf4a5"
  else none

structure CanBridgeResult where
  isWithinLimit : Bool
  error : Option String
deriving DecidableEq, Repr

/-- BridgingSDK.canBridge: the readContract parameter captures every possible
behaviour of the remote canBridge view call, an exception (contract revert,
RPC failure — the caught error's message) or a (withinLimit, reason) pair.
The function is total — every outcome, including a throwing read, produces a
CanBridgeResult — which embeds the source's catch-all try/catch: canBridge
never throws. -/
def canBridge (currentChainId : Nat) (fromAddr : String) (amount : Nat)
    (targetChainId : Nat)
    (readContract : String → Nat → Except String (Bool × String)) :
    CanBridgeResult :=
  if (SUPPORTED_CHAINS targetChainId).isNone then
    ⟨false, some ("Unsupported target chain: " ++ Nat.repr targetChainId)⟩
  else if BRIDGE_CONTRACT_ADDRESSES currentChainId = none then
    ⟨false, some ("Bridge contract not deployed on chain " ++ Nat.repr currentChainId)⟩
  else
    match readContract fromAddr (normalizeAmount amount currentChainId) with
    | Except.error e => ⟨false, some ("Failed to check bridge limits: " ++ e)⟩
    | Except.ok (isWithinLimit, canBridgeError) =>
      ⟨isWithinLimit, if isWithinLimit then none else some canBridgeError⟩

theorem length_append_pos_left (a b : String) (h : 0 < a.length) :
    0 < (a ++ b).length := by
  rw [String.length_append]
  omega

/-- C8: canBridge always returns a result (it is a total function of the read
outcome, for a throwing read included), and on every failure — unsupported
destination, missing contract address, or a read that throws — the result is
isWithinLimit false together with a non-empty error message. -/
theorem canBridge_always_result (cur tgt : Nat) (fromAddr : String) (amount : Nat)
    (readContract : String → Nat → Except String (Bool × String)) :
    (SUPPORTED_CHAINS tgt).isNone = true ∨ BRIDGE_CONTRACT_ADDRESSES cur = none ∨
      (∃ e, readContract fromAddr (normalizeAmount amount cur) = Except.error e) →
    (canBridge cur fromAddr amount tgt readContract).isWithinLimit = false ∧
      ∃ msg, (canBridge cur fromAddr amount tgt readContract).error = some msg ∧
        0 < msg.length := by
  intro h
  by_cases h1 : (SUPPORTED_CHAINS tgt).isNone
  · rw [canBridge, if_pos h1]
    exact ⟨rfl, _, rfl, length_append_pos_left _ _ (by decide)⟩
  · by_cases h2 : BRIDGE_CONTRACT_ADDRESSES cur = none
    · rw [canBridge, if_neg h1, if_pos h2]
      exact ⟨rfl, _, rfl, length_append_pos_left _ _ (by decide)⟩
    · rcases h with ha | hb | ⟨e, h3⟩
      · exact absurd ha (by simpa using h1)
      · exact absurd hb h2
      · rw [canBridge, if_neg h1, if_neg h2, h3]
        exact ⟨rfl, _, rfl, length_append_pos_left _ _ (by decide)⟩

/-- C8 witness: a read that reverts, on a supported chain pair, yields
isWithinLimit false and a non-empty error. -/
theorem canBridge_always_result_witness :
    (canBridge 42220 "0xsender" 100 122
        (fun _ _ => Except.error "execution reverted")).isWithinLimit = false ∧
    ∃ msg, (canBridge 42220 "0xsender" 100 122
        (fun _ _ => Except.error "execution reverted")).error = some msg ∧
      0 < msg.length :=
  canBridge_always_result 42220 122 "0xsender" 100
    (fun _ _ => Except.error "execution reverted")
    (Or.inr (Or.inr ⟨"execution reverted", rfl⟩))

/-! ### Transaction status tracking (utils/tracking.ts and viem-sdk.ts) -/

structure LZMessage where
  status : String
  srcTxHash : String
  dstTxHash : String
  timestamp : Int
deriving DecidableEq, Repr

structure LayerZeroScanResponse where
  messages : List LZMessage
deriving DecidableEq, Repr

structure AxelarTx where
  status : String
  sourceTxHash : String
  destinationTxHash : String
  updatedAt : Int
  createdAt : Int
deriving DecidableEq, Repr

structure AxelarscanResponse where
  data : List AxelarTx
deriving DecidableEq, Repr

inductive TxStatusKind
  | pending
  | completed
  | failed
deriving DecidableEq, Repr

structure TransactionStatus where
  status : TxStatusKind
  srcTxHash : Option String := none
  dstTxHash : Option String := none
  timestamp : Option Int := none
  error : Option String := none
deriving DecidableEq, Repr

/-- getLayerZeroStatus from utils/tracking.ts.  The outcome parameter stands
for the scan fetch: a network failure, a non-ok HTTP status (the source
throws and catches it) or a JSON decode failure are Except.error carrying the
caught message; the AxelarTx timestamps of the Date conversions are carried
as integers.  The source's switch default (INFLIGHT and anything else) is the
final else branch. -/
def getLayerZeroStatus (outcome : Except String LayerZeroScanResponse) :
    TransactionStatus :=
  match outcome with
  | Except.error e =>
    { status := TxStatusKind.failed,
      error := some ("Failed to fetch LayerZero status: " ++ e) }
  | Except.ok d =>
    match d.messages.head? with
    | none => { status := TxStatusKind.pending, error := some "Transaction not found" }
    | some message =>
      if message.status = "DELIVERED" then
        { status := TxStatusKind.completed, srcTxHash := some message.srcTxHash,
          dstTxHash := some message.dstTxHash,
          timestamp := some (message.timestamp * 1000) }
      else if message.status = "FAILED" then
        { status := TxStatusKind.failed, srcTxHash := some message.srcTxHash,
          dstTxHash := some message.dstTxHash,
          timestamp := some (message.timestamp * 1000),
          error := some "LayerZero transaction failed" }
      else
        { status := TxStatusKind.pending, srcTxHash := some message.srcTxHash,
          timestamp := some (message.timestamp * 1000) }

/-- getAxelarStatus from utils/tracking.ts, same conventions. -/
def getAxelarStatus (outcome : Except String AxelarscanResponse) :
    TransactionStatus :=
  match outcome with
  | Except.error e =>
    { status := TxStatusKind.failed,
      error := some ("Failed to fetch Axelar status: " ++ e) }
  | Except.ok d =>
    match d.data.head? with
    | none => { status := TxStatusKind.pending, error := some "Transaction not found" }
    | some transaction =>
      if transaction.status = "executed" then
        { status := TxStatusKind.completed,
          srcTxHash := some transaction.sourceTxHash,
          dstTxHash := some transaction.destinationTxHash,
          timestamp := some transaction.updatedAt }
      else if transaction.status = "failed" then
        { status := TxStatusKind.failed,
          srcTxHash := some transaction.sourceTxHash,
          dstTxHash := some transaction.destinationTxHash,
          timestamp := some transaction.updatedAt,
          error := some "Axelar transaction failed" }
      else
        { status := TxStatusKind.pending,
          srcTxHash := some transaction.sourceTxHash,
          timestamp := some transaction.createdAt }

/-- getTransactionStatus from utils/tracking.ts: dispatch on the protocol. -/
def getTransactionStatus (protocol : BridgeProtocol)
    (lzOutcome : Except String LayerZeroScanResponse)
    (axOutcome : Except String AxelarscanResponse) : TransactionStatus :=
  match protocol with
  | BridgeProtocol.LAYERZERO => getLayerZeroStatus lzOutcome
  | BridgeProtocol.AXELAR => getAxelarStatus axOutcome

/-- BridgingSDK.getLayerZeroStatus from viem-sdk.ts: the same status mapping,
but with no try/catch and no response.ok check, so a failed or undecodable
fetch propagates as an exception (Except.error) instead of being converted
into a failed TransactionStatus. -/
def viemGetLayerZeroStatus (outcome : Except String LayerZeroScanResponse) :
    Except String TransactionStatus :=
  match outcome with
  | Except.error e => Except.error e
  | Except.ok d =>
    match d.messages.head? with
    | none => Except.ok { status := TxStatusKind.pending }
    | some message =>
      Except.ok
        { status :=
            if message.status = "DELIVERED" then TxStatusKind.completed
            else if message.status = "FAILED" then TxStatusKind.failed
            else TxStatusKind.pending,
          srcTxHash := some message.srcTxHash,
          dstTxHash := some message.dstTxHash,
          timestamp := some (message.timestamp * 1000) }

/-- BridgingSDK.getAxelarStatus from viem-sdk.ts, same conventions. -/
def viemGetAxelarStatus (outcome : Except String AxelarscanResponse) :
    Except String TransactionStatus :=
  match outcome with
  | Except.error e => Except.error e
  | Except.ok d =>
    match d.data.head? with
    | none => Except.ok { status := TxStatusKind.pending }
    | some transaction =>
      Except.ok
        { status :=
            if transaction.status = "executed" then TxStatusKind.completed
            else if transaction.status = "failed" then TxStatusKind.failed
            else TxStatusKind.pending,
          srcTxHash := some transaction.sourceTxHash,
          dstTxHash := some transaction.destinationTxHash,
          timestamp := some transaction.updatedAt }

/-- BridgingSDK.getTransactionStatus from viem-sdk.ts. -/
def viemGetTransactionStatus (protocol : BridgeProtocol)
    (lzOutcome : Except String LayerZeroScanResponse)
    (axOutcome : Except String AxelarscanResponse) :
    Except String TransactionStatus :=
  match protocol with
  | BridgeProtocol.LAYERZERO => viemGetLayerZeroStatus lzOutcome
  | BridgeProtocol.AXELAR => viemGetAxelarStatus axOutcome

/-- C9 (counterexample): the claim says getTransactionStatus converts every
network or parse error into a failed status object rather than propagating
an exception, but the viem-sdk.ts variant named by the claim has no
try/catch: a failing LayerZero scan fetch propagates verbatim. -/
theorem status_error_propagates_counterexample :
    viemGetTransactionStatus BridgeProtocol.LAYERZERO
      (Except.error "network error") (Except.ok ⟨[]⟩) =
      Except.error "network error" := by
  decide

/-- C9 (amended): the tracking.ts getTransactionStatus maps the LayerZero
statuses DELIVERED to completed, FAILED to failed and anything else (absent
data included) to pending, the Axelar statuses executed to completed, failed
to failed and anything else to pending, and converts every fetch error into
a failed status with a message; the viem-sdk.ts variant performs the same
status mapping on successful responses but propagates fetch errors as
exceptions. -/
theorem getTransactionStatus_spec :
    (∀ (ax : Except String AxelarscanResponse) (m : LZMessage)
        (rest : List LZMessage),
      (getTransactionStatus BridgeProtocol.LAYERZERO
          (Except.ok ⟨m :: rest⟩) ax).status =
        (if m.status = "DELIVERED" then TxStatusKind.completed
          else if m.status = "FAILED" then TxStatusKind.failed
          else TxStatusKind.pending)) ∧
    (∀ ax, (getTransactionStatus BridgeProtocol.LAYERZERO
        (Except.ok ⟨[]⟩) ax).status = TxStatusKind.pending) ∧
    (∀ ax e, getTransactionStatus BridgeProtocol.LAYERZERO (Except.error e) ax =
      { status := TxStatusKind.failed,
        error := some ("Failed to fetch LayerZero status: " ++ e) }) ∧
    (∀ (lz : Except String LayerZeroScanResponse) (t : AxelarTx)
        (rest : List AxelarTx),
      (getTransactionStatus BridgeProtocol.AXELAR lz
          (Except.ok ⟨t :: rest⟩)).status =
        (if t.status = "executed" then TxStatusKind.completed
          else if t.status = "failed" then TxStatusKind.failed
          else TxStatusKind.pending)) ∧
    (∀ lz, (getTransactionStatus BridgeProtocol.AXELAR lz
        (Except.ok ⟨[]⟩)).status = TxStatusKind.pending) ∧
    (∀ lz e, getTransactionStatus BridgeProtocol.AXELAR lz (Except.error e) =
      { status := TxStatusKind.failed,
        error := some ("Failed to fetch Axelar status: " ++ e) }) ∧
    (∀ (ax : Except String AxelarscanResponse) (m : LZMessage)
        (rest : List LZMessage),
      viemGetTransactionStatus BridgeProtocol.LAYERZERO
          (Except.ok ⟨m :: rest⟩) ax =
        Except.ok
          { status :=
              if m.status = "DELIVERED" then TxStatusKind.completed
              else if m.status = "FAILED" then TxStatusKind.failed
              else TxStatusKind.pending,
            srcTxHash := some m.srcTxHash, dstTxHash := some m.dstTxHash,
            timestamp := some (m.timestamp * 1000) }) ∧
    (∀ ax, viemGetTransactionStatus BridgeProtocol.LAYERZERO
        (Except.ok ⟨[]⟩) ax = Except.ok { status := TxStatusKind.pending }) ∧
    (∀ ax e, viemGetTransactionStatus BridgeProtocol.LAYERZERO
        (Except.error e) ax = Except.error e) ∧
    (∀ (lz : Except String LayerZeroScanResponse) (t : AxelarTx)
        (rest : List AxelarTx),
      viemGetTransactionStatus BridgeProtocol.AXELAR lz
          (Except.ok ⟨t :: rest⟩) =
        Except.ok
          { status :=
              if t.status = "executed" then TxStatusKind.completed
              else if t.status = "failed" then TxStatusKind.failed
              else TxStatusKind.pending,
            srcTxHash := some t.sourceTxHash,
            dstTxHash := some t.destinationTxHash,
            timestamp := some t.updatedAt }) ∧
    (∀ lz, viemGetTransactionStatus BridgeProtocol.AXELAR lz
        (Except.ok ⟨[]⟩) = Except.ok { status := TxStatusKind.pending }) ∧
    (∀ lz e, viemGetTransactionStatus BridgeProtocol.AXELAR lz
        (Except.error e) = Except.error e) := by
  refine ⟨?_, fun ax => rfl, fun ax e => rfl, ?_, fun lz => rfl, fun lz e => rfl,
    ?_, fun ax => rfl, fun ax e => rfl, ?_, fun lz => rfl, fun lz e => rfl⟩
  · intro ax m rest
    show (getLayerZeroStatus (Except.ok ⟨m :: rest⟩)).status = _
    rw [getLayerZeroStatus]
    simp only [List.head?_cons]
    split_ifs <;> rfl
  · intro lz t rest
    show (getAxelarStatus (Except.ok ⟨t :: rest⟩)).status = _
    rw [getAxelarStatus]
    simp only [List.head?_cons]
    split_ifs <;> rfl
  · intro ax m rest
    show viemGetLayerZeroStatus (Except.ok ⟨m :: rest⟩) = _
    rw [viemGetLayerZeroStatus]
    simp only [List.head?_cons]
  · intro lz t rest
    show viemGetAxelarStatus (Except.ok ⟨t :: rest⟩) = _
    rw [viemGetAxelarStatus]
    simp only [List.head?_cons]

/-! ### Protocol enum encoding in the two SDK variants (C10) -/

/-- The numeric on-chain bridge enum value written by bridgeTo in
viem-sdk.ts: protocol AXELAR yields 0, otherwise 1. -/
def bridgeEnumViem (p : BridgeProtocol) : Nat :=
  if p = BridgeProtocol.AXELAR then 0 else 1

/-- The numeric on-chain bridge enum value written by bridgeTo in the other
BridgingSDK variant: protocol LAYERZERO yields 0, otherwise 1. -/
def bridgeEnumAlt (p : BridgeProtocol) : Nat :=
  if p = BridgeProtocol.LAYERZERO then 0 else 1

/-- The contract-call argument list built by bridgeTo in viem-sdk.ts. -/
def bridgeToArgsViem (target : String) (targetChainId amount : Nat)
    (p : BridgeProtocol) : String × Nat × Nat × Nat :=
  (target, targetChainId, amount, bridgeEnumViem p)

/-- The contract-call argument list built by bridgeTo in the other variant. -/
def bridgeToArgsAlt (target : String) (targetChainId amount : Nat)
    (p : BridgeProtocol) : String × Nat × Nat × Nat :=
  (target, targetChainId, amount, bridgeEnumAlt p)

/-- The event-field decoding in viem-sdk.ts getBridgeRequests and
getExecutedTransfers: bridge 0 reads as AXELAR, anything else as LAYERZERO. -/
def decodeBridgeViem (b : Nat) : BridgeProtocol :=
  if b = 0 then BridgeProtocol.AXELAR else BridgeProtocol.LAYERZERO

/-- The event-field decoding in the other variant: bridge 0 reads as
LAYERZERO, anything else as AXELAR. -/
def decodeBridgeAlt (b : Nat) : BridgeProtocol :=
  if b = 0 then BridgeProtocol.LAYERZERO else BridgeProtocol.AXELAR

/-- C10 (counterexample): the two variants do not encode protocols to the
same on-chain enum value — for AXELAR, viem-sdk.ts writes 0 while the other
variant writes 1. -/
theorem bridge_enum_encoding_counterexample :
    (bridgeToArgsViem "0xrecipient" 1 100 BridgeProtocol.AXELAR).2.2.2 = 0 ∧
    (bridgeToArgsAlt "0xrecipient" 1 100 BridgeProtocol.AXELAR).2.2.2 = 1 := by
  decide

/-- C10 (amended): within each variant, decoding the event bridge field after
encoding returns the original protocol, but the two variants use opposite
encodings — they disagree on every protocol. -/
theorem bridge_enum_roundtrip :
    (∀ p, decodeBridgeViem (bridgeEnumViem p) = p) ∧
    (∀ p, decodeBridgeAlt (bridgeEnumAlt p) = p) ∧
    (∀ p, bridgeEnumViem p ≠ bridgeEnumAlt p) := by
  refine ⟨fun p => ?_, fun p => ?_, fun p => ?_⟩ <;> cases p <;> decide

end GoodSDKs
